import Mathlib

/-!
Shallow embedding of the Teslin-Performance-Chart period-resolution and
return-calculation engine (`src/utils/dateUtils.ts`, `src/utils/dataProcessor.ts`
and the indexing step of `ChartDisplay`).

Modelling conventions:
* A JavaScript `Date` is modelled at day precision as a `Civil` record of
  year/month(1..12)/day; `getTime` converts it to the day number since the Unix
  epoch (1970-01-01).  The source compares and subtracts dates through
  `Date.getTime()` in milliseconds; since every date handled by the program is
  anchored at a day boundary, millisecond arithmetic is day arithmetic scaled by
  the constant 86400000, so ordering and tie behaviour are identical.
* JavaScript numbers are modelled by `ℚ`; `Math.pow` is an uninterpreted
  function parameter `pow : ℚ → ℚ → ℚ` threaded through the definitions,
  standing for real exponentiation.
* The source's internal `const today = new Date()` (ambient wall clock) is made
  an explicit `today : Civil` argument of the model, so that dependence on the
  clock is expressible.
* `sort` with the comparator `(a, b) => a.date.getTime() - b.date.getTime()` is
  a stable ascending sort; it is modelled by `List.insertionSort`.
* A JavaScript crash (reading a property of `undefined`, as happens on
  `filteredData[0].value` when the filtered list is empty) is modelled by the
  function returning `none`; a normal return is `some`.
-/

-- Rational arithmetic is used in concrete evaluations below; restore
-- reducibility of the Batteries rational primitives so `decide` can run them.
unseal Rat.add Rat.sub Rat.mul Rat.inv

/-- Calendar date: year, month (1-12), day (1-31) — the components JS exposes as
`getFullYear()`, `getMonth()+1`, `getDate()`. -/
structure Civil where
  year : Int
  month : Int
  day : Int
deriving DecidableEq, Repr

/-- Gregorian leap year, as implemented by every JS engine's calendar. -/
def isLeap (y : Int) : Bool :=
  (y % 4 == 0 && y % 100 != 0) || y % 400 == 0

def daysInYear (y : Int) : Int := if isLeap y then 366 else 365

def daysInMonth (y m : Int) : Int :=
  if m = 2 then (if isLeap y then 29 else 28)
  else if m = 4 ∨ m = 6 ∨ m = 9 ∨ m = 11 then 30
  else 31

/-- Days from 1970-01-01 to (1970+n)-01-01. -/
def daysAfterEpoch : Nat → Int
  | 0 => 0
  | n + 1 => daysAfterEpoch n + daysInYear (1970 + n)

/-- (Negative) day number of (1970-n)-01-01. -/
def daysBeforeEpoch : Nat → Int
  | 0 => 0
  | n + 1 => daysBeforeEpoch n - daysInYear (1969 - n)

/-- Day number of January 1st of year `y` (0 for 1970). -/
def yearStart (y : Int) : Int :=
  if y ≥ 1970 then daysAfterEpoch (y - 1970).toNat
  else daysBeforeEpoch (1970 - y).toNat

/-- Days in months `1..n` of year `y` (offset of the first day of month `n+1`
within the year). -/
def monthOffset (y : Int) : Nat → Int
  | 0 => 0
  | n + 1 => monthOffset y n + daysInMonth y (n + 1)

/-- `Date.getTime()`, rescaled from milliseconds to days: day number since the
Unix epoch of a calendar date. -/
def getTime (c : Civil) : Int :=
  yearStart c.year + monthOffset c.year (c.month - 1).toNat + (c.day - 1)

/-- Day-overflow normalization (`d > daysInMonth`): carry whole months forward.
Each step removes at least 28 days from `d`, so `d.toNat` steps of fuel are
ample; with sufficient fuel this is exactly the ECMAScript `MakeDay`
normalization. -/
def carryDays : Nat → Int → Int → Int → Civil
  | 0, y, m, d => ⟨y, m, d⟩
  | fuel + 1, y, m, d =>
    if d ≤ daysInMonth y m then ⟨y, m, d⟩
    else if m = 12 then carryDays fuel (y + 1) 1 (d - daysInMonth y m)
    else carryDays fuel y (m + 1) (d - daysInMonth y m)

/-- Day-underflow normalization (`d < 1`): borrow whole months backward.  Each
step adds at least 28 days to `d`, so `(2 - d).toNat` steps of fuel are ample. -/
def borrowDays : Nat → Int → Int → Int → Civil
  | 0, y, m, d => ⟨y, m, d⟩
  | fuel + 1, y, m, d =>
    if 1 ≤ d then ⟨y, m, d⟩
    else
      let y2 := if m = 1 then y - 1 else y
      let m2 := if m = 1 then 12 else m - 1
      borrowDays fuel y2 m2 (d + daysInMonth y2 m2)

/-- ECMAScript `MakeDay(y, m-1, d)` (the normalization behind `setMonth` /
`setFullYear`): months are reduced into the year, then an out-of-range
day-of-month rolls across month boundaries (it is NOT clamped). -/
def mkDate (y m d : Int) : Civil :=
  let ym := y + Int.fdiv (m - 1) 12
  let mm := Int.emod (m - 1) 12 + 1
  if d < 1 then borrowDays (2 - d).toNat ym mm d else carryDays d.toNat ym mm d

/-- `calculateYearFrac` from `src/utils/dateUtils.ts`: Excel YEARFRAC basis 0
(US 30/360 NASD).  Swaps the dates if given in reverse order, applies the two
day-31 adjustments (start first, then end conditional on the adjusted start),
then counts 30-day months / 360-day years. -/
def calculateYearFrac (startDate endDate : Civil) : ℚ :=
  let p := if getTime startDate > getTime endDate then (endDate, startDate)
           else (startDate, endDate)
  let s := p.1
  let e := p.2
  let startDay : Int := if s.day = 31 then 30 else s.day
  let endDay : Int := if e.day = 31 ∧ startDay ≥ 30 then 30 else e.day
  let days : Int :=
    (e.year - s.year) * 360 + (e.month - s.month) * 30 + (endDay - startDay)
  (days : ℚ) / 360

/-- Loop of `findClosestDate`: scan, keeping the running closest date and its
absolute difference; update only on a strictly smaller difference. -/
def findClosestGo (target : Int) (closest : Civil) (minDiff : Int) :
    List Civil → Civil
  | [] => closest
  | d :: ds =>
    if |getTime d - target| < minDiff then
      findClosestGo target d |getTime d - target| ds
    else
      findClosestGo target closest minDiff ds

/-- `findClosestDate` from `src/utils/dateUtils.ts`: `null` on an empty list,
otherwise a left-to-right scan initialised with the first date. -/
def findClosestDate (targetDate : Civil) (dates : List Civil) : Option Civil :=
  match dates with
  | [] => none
  | d :: ds =>
    some (findClosestGo (getTime targetDate) d |getTime d - getTime targetDate| ds)

/-- Period selector (`src/types.ts`). -/
inductive Period where
  | p1m | p3m | ytd | p1y | p3y | p5y | p10y | p15y | p20y | si | custom
deriving DecidableEq, Repr

/-- `calculateStartDate` from `src/utils/dateUtils.ts`.  Month presets use
`setMonth(endDate.getMonth() - k)`, year presets `setFullYear(year - k)`; `ytd`
does `setMonth(0)` then `setDate(1)`; every other period returns
`new Date(0)` (the epoch, 1970-01-01). -/
def calculateStartDate (period : Period) (endDate : Civil) : Civil :=
  match period with
  | .p1m => mkDate endDate.year (endDate.month - 1) endDate.day
  | .p3m => mkDate endDate.year (endDate.month - 3) endDate.day
  | .ytd =>
    let t1 := mkDate endDate.year 1 endDate.day
    mkDate t1.year t1.month 1
  | .p1y => mkDate (endDate.year - 1) endDate.month endDate.day
  | .p3y => mkDate (endDate.year - 3) endDate.month endDate.day
  | .p5y => mkDate (endDate.year - 5) endDate.month endDate.day
  | .p10y => mkDate (endDate.year - 10) endDate.month endDate.day
  | .p15y => mkDate (endDate.year - 15) endDate.month endDate.day
  | .p20y => mkDate (endDate.year - 20) endDate.month endDate.day
  | _ => ⟨1970, 1, 1⟩

/-- A sample from the uploaded series (`src/types.ts`): a date/value pair. -/
structure DataPoint where
  date : Civil
  value : ℚ
deriving DecidableEq, Repr

/-- Custom date range (`src/types.ts`). -/
structure CustomPeriod where
  startDate : Civil
  endDate : Civil
deriving DecidableEq, Repr

/-- Result record of `processData` (`src/types.ts`). -/
structure ProcessedData where
  filteredData : List DataPoint
  startDate : Option Civil
  endDate : Option Civil
  startValue : Option ℚ
  endValue : Option ℚ
  returnValue : Option ℚ
  isAnnualized : Bool
  inceptionStartDate : Option Civil
  inceptionStartValue : Option ℚ
deriving DecidableEq, Repr

/-- The all-null result `processData` returns when there is nothing to show. -/
def emptyResult : ProcessedData :=
  ⟨[], none, none, none, none, none, false, none, none⟩

/-- Ascending-by-date comparison used by the sort in `processData` step 1. -/
def dateLe (a b : DataPoint) : Prop := getTime a.date ≤ getTime b.date

instance : DecidableRel dateLe := fun a b => Int.decLe _ _

instance : IsTotal DataPoint dateLe := ⟨fun a b => Int.le_total _ _⟩

instance : IsTrans DataPoint dateLe := ⟨fun a b c hab hbc => hab.trans hbc⟩

/-- `processData` from `src/utils/dataProcessor.ts`.

`pow` is the uninterpreted stand-in for `Math.pow`; `today` is the value of the
`new Date()` read at line 55 (the ambient wall clock at call time).  The
function returns `none` exactly when the original crashes (reading
`filteredData[0].value` / `filteredData[length-1].value` off an empty filtered
array); every normal return is `some`. -/
def processData (pow : ℚ → ℚ → ℚ) (data : List DataPoint)
    (selectedPeriod : Period) (customPeriod : Option CustomPeriod)
    (today : Civil) : Option ProcessedData :=
  if data = [] then some emptyResult else
  let sortedData := data.insertionSort dateLe
  match sortedData.reverse.find? (fun item => decide (getTime item.date ≤ getTime today)) with
  | none => some emptyResult
  | some latestData =>
    let target : Civil × Civil :=
      match selectedPeriod, customPeriod with
      | .custom, some cp => (cp.endDate, cp.startDate)
      | _, _ =>
        let endDate := latestData.date
        if selectedPeriod = .si then
          (endDate, (sortedData.headD ⟨⟨1970, 1, 1⟩, 0⟩).date)
        else
          (endDate, calculateStartDate selectedPeriod endDate)
    let allDates := sortedData.map (·.date)
    match findClosestDate target.2 allDates, findClosestDate target.1 allDates with
    | some closestStartDate, some closestEndDate =>
      let filteredData := sortedData.filter fun item =>
        decide (getTime closestStartDate ≤ getTime item.date) &&
        decide (getTime item.date ≤ getTime closestEndDate)
      match filteredData.head?, filteredData.getLast? with
      | some startDataPoint, some endDataPoint =>
        let startValue := startDataPoint.value
        let endValue := endDataPoint.value
        let isAnnualized : Bool :=
          match selectedPeriod with
          | .custom => decide (calculateYearFrac closestStartDate closestEndDate ≥ 1)
          | .p1y | .p3y | .p5y | .p10y | .p15y | .p20y | .si => true
          | _ => false
        let returnValue : ℚ :=
          if isAnnualized then
            let years := calculateYearFrac closestStartDate closestEndDate
            if years ≥ 1/12 then pow (endValue / startValue) (1 / years) - 1
            else endValue / startValue - 1
          else endValue / startValue - 1
        some { filteredData := filteredData
               startDate := some closestStartDate
               endDate := some closestEndDate
               startValue := some startValue
               endValue := some endValue
               returnValue := some returnValue
               isAnnualized := isAnnualized
               inceptionStartDate := some (sortedData.headD ⟨⟨1970, 1, 1⟩, 0⟩).date
               inceptionStartValue := some (sortedData.headD ⟨⟨1970, 1, 1⟩, 0⟩).value }
      | _, _ => none
    | _, _ => some emptyResult

/-- The pair of snapped period boundaries (`closestStartDate`,
`closestEndDate`) that `processData` resolves in its steps 1-4, made explicit
so that claims about them can be stated; `none` when `processData` stops with
the empty result before reaching step 5. -/
def resolvedBounds (data : List DataPoint) (selectedPeriod : Period)
    (customPeriod : Option CustomPeriod) (today : Civil) :
    Option (Civil × Civil) :=
  if data = [] then none else
  let sortedData := data.insertionSort dateLe
  match sortedData.reverse.find? (fun item => decide (getTime item.date ≤ getTime today)) with
  | none => none
  | some latestData =>
    let target : Civil × Civil :=
      match selectedPeriod, customPeriod with
      | .custom, some cp => (cp.endDate, cp.startDate)
      | _, _ =>
        let endDate := latestData.date
        if selectedPeriod = .si then
          (endDate, (sortedData.headD ⟨⟨1970, 1, 1⟩, 0⟩).date)
        else
          (endDate, calculateStartDate selectedPeriod endDate)
    let allDates := sortedData.map (·.date)
    match findClosestDate target.2 allDates, findClosestDate target.1 allDates with
    | some closestStartDate, some closestEndDate =>
      some (closestStartDate, closestEndDate)
    | _, _ => none

/-- A point of the chart-ready series built by `ChartDisplay` (the fields of
the objects produced in its Step 3 `data.map`). -/
structure ChartPoint where
  date : Civil
  value : ℚ
  actualValue : ℚ
  indexedValue : ℚ
  annualizedReturnSinceInception : ℚ
deriving DecidableEq, Repr

/-- The indexed chart series of `ChartDisplay` (`Step 1`-`Step 3`): baseline is
the first point of the selected period, indexing is `value / baseline * 100`,
and the since-inception CAGR uses the first point of the sorted full dataset.
`none` models the component's early exit on empty `data` (it renders a message
and produces no series) and the crash on `sortedFullDataset[0]` when
`fullDataset` is empty. -/
def chartData (pow : ℚ → ℚ → ℚ) (data fullDataset : List DataPoint) :
    Option (List ChartPoint) :=
  match data with
  | [] => none
  | p0 :: _ =>
    let selectedPeriodStartValue := p0.value
    match fullDataset.insertionSort dateLe with
    | [] => none
    | q0 :: _ =>
      let inceptionStartValue := q0.value
      let inceptionStartDate := q0.date
      some (data.map fun point =>
        let indexedValue := point.value / selectedPeriodStartValue * 100
        let yearsFromInception := calculateYearFrac inceptionStartDate point.date
        let annualizedReturnSinceInception :=
          if yearsFromInception ≥ 1/12 then
            pow (point.value / inceptionStartValue) (1 / yearsFromInception) - 1
          else
            point.value / inceptionStartValue - 1
        { date := point.date
          value := indexedValue
          actualValue := point.value
          indexedValue := indexedValue
          annualizedReturnSinceInception := annualizedReturnSinceInception })

/-- Concrete stand-in for `Math.pow` used in closed evaluations; the theorems
are uniform in the `pow` argument, so any function works here. -/
def powStub : ℚ → ℚ → ℚ := fun a b => a + b

example : getTime ⟨1970, 1, 1⟩ = 0 := by decide
example : getTime ⟨1970, 2, 1⟩ = 31 := by decide
example : getTime ⟨1971, 1, 1⟩ = 365 := by decide
example : getTime ⟨1969, 12, 31⟩ = -1 := by decide
example : getTime ⟨2015, 3, 31⟩ = 16525 := by decide
example : calculateYearFrac ⟨2015, 3, 31⟩ ⟨2025, 3, 31⟩ = 10 := by decide
example : calculateStartDate .p1m ⟨2015, 3, 31⟩ = ⟨2015, 3, 3⟩ := by decide
example : calculateStartDate .p1y ⟨2016, 2, 29⟩ = ⟨2015, 3, 1⟩ := by decide
example : calculateStartDate .ytd ⟨2015, 5, 31⟩ = ⟨2015, 1, 1⟩ := by decide
example : calculateStartDate .p1m ⟨2015, 1, 15⟩ = ⟨2014, 12, 15⟩ := by decide
example : findClosestDate ⟨2015, 4, 1⟩ [⟨2015, 3, 30⟩, ⟨2015, 4, 2⟩]
    = some ⟨2015, 4, 2⟩ := by decide
example : findClosestDate ⟨2015, 4, 1⟩ [⟨2015, 3, 31⟩, ⟨2015, 4, 2⟩]
    = some ⟨2015, 3, 31⟩ := by decide
example : processData powStub [] .p1y none ⟨1970, 1, 1⟩ = some emptyResult := by decide
example : processData powStub [⟨⟨1970, 1, 1⟩, 1⟩, ⟨⟨1970, 1, 11⟩, 2⟩] .custom
    (some ⟨⟨1970, 1, 11⟩, ⟨1970, 1, 1⟩⟩) ⟨1970, 6, 1⟩ = none := by decide
example : (processData powStub [⟨⟨1970, 1, 1⟩, 0⟩, ⟨⟨1971, 1, 6⟩, 100⟩] .si none
    ⟨1971, 6, 1⟩).isSome = true := by decide
example : processData powStub [⟨⟨1970, 1, 1⟩, 100⟩, ⟨⟨1975, 1, 1⟩, 200⟩] .si none ⟨1970, 6, 1⟩
    ≠ processData powStub [⟨⟨1970, 1, 1⟩, 100⟩, ⟨⟨1975, 1, 1⟩, 200⟩] .si none ⟨1976, 1, 1⟩ := by
  decide
example : chartData powStub [⟨⟨1970, 1, 1⟩, 5⟩] [⟨⟨1970, 1, 1⟩, 5⟩]
    = some [⟨⟨1970, 1, 1⟩, 100, 5, 100, 0⟩] := by decide

/-- C1: for calendar dates with `start ≤ end`, `calculateYearFrac` returns
exactly `((end.year - start.year)*360 + (end.month - start.month)*30 +
(end.day' - start.day')) / 360`, where `start.day' = 30` if `start.day = 31`
(else `start.day`), and `end.day' = 30` if `end.day = 31` and the
already-adjusted `start.day' ≥ 30` (else `end.day`) — the start-day fix is
applied before the end-day condition is evaluated. -/
theorem calculateYearFrac_30_360 (s e : Civil) (h : getTime s ≤ getTime e) :
    calculateYearFrac s e =
      (((e.year - s.year) * 360 + (e.month - s.month) * 30 +
        ((if e.day = 31 ∧ (if s.day = 31 then (30 : Int) else s.day) ≥ 30
            then (30 : Int) else e.day) -
         (if s.day = 31 then (30 : Int) else s.day)) : Int) : ℚ) / 360 := by
  unfold calculateYearFrac
  rw [if_neg (not_lt.mpr h)]

/-- C1 witness: both day-31 adjustments fire and
`yearFraction(2015-03-31, 2025-03-31)` is exactly 10. -/
theorem calculateYearFrac_30_360_witness :
    calculateYearFrac ⟨2015, 3, 31⟩ ⟨2025, 3, 31⟩ = 10 := by
  rw [calculateYearFrac_30_360 ⟨2015, 3, 31⟩ ⟨2025, 3, 31⟩ (by decide)]
  decide

/-- C6: on a series whose resolved period start value is 0, `processData` does
NOT signal an error — it completes normally, returning a result whose
`returnValue` is built from the unchecked division `endValue / startValue`
(`Infinity` in the JavaScript original; the spec requires an explicit
failure here). -/
theorem processData_zero_startValue_completes :
    processData powStub [⟨⟨1970, 1, 1⟩, 0⟩, ⟨⟨1971, 1, 6⟩, 100⟩] .si none ⟨1971, 6, 1⟩
      = some { filteredData := [⟨⟨1970, 1, 1⟩, 0⟩, ⟨⟨1971, 1, 6⟩, 100⟩]
               startDate := some ⟨1970, 1, 1⟩
               endDate := some ⟨1971, 1, 6⟩
               startValue := some 0
               endValue := some 100
               returnValue := some (powStub (100 / 0) (360 / 365) - 1)
               isAnnualized := true
               inceptionStartDate := some ⟨1970, 1, 1⟩
               inceptionStartValue := some 0 } := by decide

/-- C7 counterexample: JS `setMonth`/`setFullYear` roll an overflowing
day-of-month into the following month instead of clamping: one month before
2015-03-31 is 2015-03-03 (not 2015-02-28), and one year before 2016-02-29 is
2015-03-01 (not 2015-02-28). -/
theorem calculateStartDate_rolls_not_clamps :
    calculateStartDate .p1m ⟨2015, 3, 31⟩ = ⟨2015, 3, 3⟩ ∧
    calculateStartDate .p1m ⟨2015, 3, 31⟩ ≠ ⟨2015, 2, 28⟩ ∧
    calculateStartDate .p1y ⟨2016, 2, 29⟩ = ⟨2015, 3, 1⟩ ∧
    calculateStartDate .p1y ⟨2016, 2, 29⟩ ≠ ⟨2015, 2, 28⟩ := by decide

/-- C7 (amended): for every end date (any day-of-month a calendar produces,
`1 ≤ day ≤ 31`), the calendar-offset presets subtract the stated number of
months or years via `mkDate`, i.e. with JS `Date` normalization in which an
end-of-month overflow rolls forward into the next month (it is not clamped);
`ytd` returns January 1 of the end date's year. -/
theorem calculateStartDate_spec (e : Civil) (h1 : 1 ≤ e.day) (h31 : e.day ≤ 31) :
    calculateStartDate .p1m e = mkDate e.year (e.month - 1) e.day ∧
    calculateStartDate .p3m e = mkDate e.year (e.month - 3) e.day ∧
    calculateStartDate .p1y e = mkDate (e.year - 1) e.month e.day ∧
    calculateStartDate .p3y e = mkDate (e.year - 3) e.month e.day ∧
    calculateStartDate .p5y e = mkDate (e.year - 5) e.month e.day ∧
    calculateStartDate .p10y e = mkDate (e.year - 10) e.month e.day ∧
    calculateStartDate .p15y e = mkDate (e.year - 15) e.month e.day ∧
    calculateStartDate .p20y e = mkDate (e.year - 20) e.month e.day ∧
    calculateStartDate .ytd e = ⟨e.year, 1, 1⟩ := by
  refine ⟨rfl, rfl, rfl, rfl, rfl, rfl, rfl, rfl, ?_⟩
  have hday : mkDate e.year 1 e.day = ⟨e.year, 1, e.day⟩ := by
    obtain ⟨n, hn⟩ : ∃ n, e.day.toNat = n + 1 :=
      ⟨e.day.toNat - 1, by omega⟩
    have hle : e.day ≤ daysInMonth e.year 1 := by
      simp [daysInMonth]; omega
    simp only [mkDate, if_neg (by omega : ¬ e.day < 1)]
    norm_num [hn, carryDays, if_pos hle]
  have hone : mkDate e.year 1 1 = ⟨e.year, 1, 1⟩ := by
    have hle : (1 : Int) ≤ daysInMonth e.year 1 := by
      simp [daysInMonth]
    simp only [mkDate]
    norm_num [carryDays, if_pos hle]
  show mkDate (mkDate e.year 1 e.day).year (mkDate e.year 1 e.day).month 1 = _
  rw [hday]
  exact hone

/-- C7 witness: the amended statement applied at the concrete end date
2015-03-31 — its year-to-date start is 2015-01-01. -/
theorem calculateStartDate_spec_witness :
    calculateStartDate .ytd ⟨2015, 3, 31⟩ = ⟨2015, 1, 1⟩ :=
  (calculateStartDate_spec ⟨2015, 3, 31⟩ (by decide) (by decide)).2.2.2.2.2.2.2.2

/-- C8: on an empty series, or on a series in which no sample is dated at or
before `today`, `processData` returns the designated empty result (all fields
null, `isAnnualized = false`, empty `filteredData`) and does not crash. -/
theorem processData_empty_input (pow : ℚ → ℚ → ℚ) (data : List DataPoint)
    (selectedPeriod : Period) (customPeriod : Option CustomPeriod) (today : Civil)
    (h : data = [] ∨ ∀ p ∈ data, getTime today < getTime p.date) :
    processData pow data selectedPeriod customPeriod today = some emptyResult := by
  rcases h with h | h
  · subst h; rfl
  · by_cases hd : data = []
    · subst hd; rfl
    · have hfind : (data.insertionSort dateLe).reverse.find?
          (fun item => decide (getTime item.date ≤ getTime today)) = none := by
        rw [List.find?_eq_none]
        intro x hx
        have hxd : x ∈ data :=
          ((List.perm_insertionSort dateLe data).mem_iff).mp (List.mem_reverse.mp hx)
        simpa using not_le.mpr (h x hxd)
      simp only [processData, if_neg hd, hfind]

/-- C8 witness: the empty-series case at a concrete call. -/
theorem processData_empty_input_witness :
    processData powStub [] .p1y none ⟨1970, 1, 1⟩ = some emptyResult :=
  processData_empty_input powStub [] .p1y none ⟨1970, 1, 1⟩ (Or.inl rfl)

/-- C9 counterexample: `processData` reads the wall clock (modelled by the
`today` argument standing for the internal `new Date()`): two calls with
identical series, period and custom-period arguments but different clock
readings produce different results, so the TS function (whose signature omits
`now`) is not referentially transparent in its explicit arguments. -/
theorem processData_reads_clock :
    processData powStub [⟨⟨1970, 1, 1⟩, 100⟩, ⟨⟨1975, 1, 1⟩, 200⟩] .si none ⟨1970, 6, 1⟩
      ≠ processData powStub [⟨⟨1970, 1, 1⟩, 100⟩, ⟨⟨1975, 1, 1⟩, 200⟩] .si none ⟨1976, 1, 1⟩ := by
  decide

/-- C9 (amended): `processData` is a deterministic pure function of its
explicit arguments TOGETHER WITH the wall-clock value read at call time: two
invocations with identical series, period spec and custom period, whose clock
reads denote the same instant, produce identical results. -/
theorem processData_deterministic_given_clock (pow : ℚ → ℚ → ℚ)
    (data : List DataPoint) (selectedPeriod : Period)
    (customPeriod : Option CustomPeriod) (t1 t2 : Civil)
    (h : getTime t1 = getTime t2) :
    processData pow data selectedPeriod customPeriod t1
      = processData pow data selectedPeriod customPeriod t2 := by
  unfold processData
  rw [h]

/-- Invariant of the `findClosestDate` scan loop: starting from `best`, the
result is no farther from the target than `best` and than every element of the
remaining list, and it is either `best` itself or a list element that is
strictly closer than `best` and than every element at an earlier index. -/
theorem findClosestGo_spec (target : Int) (ds : List Civil) :
    ∀ (best c : Civil),
      c = findClosestGo target best |getTime best - target| ds →
      |getTime c - target| ≤ |getTime best - target| ∧
      (∀ d ∈ ds, |getTime c - target| ≤ |getTime d - target|) ∧
      (c = best ∨ ∃ i : Fin ds.length, ds.get i = c ∧
        |getTime c - target| < |getTime best - target| ∧
        ∀ j : Fin ds.length, (j : ℕ) < (i : ℕ) →
          |getTime c - target| < |getTime (ds.get j) - target|) := by
  induction ds with
  | nil =>
    intro best c hc
    rw [findClosestGo] at hc
    subst hc
    exact ⟨le_refl _, by simp, Or.inl rfl⟩
  | cons d ds ih =>
    intro best c hc
    rw [findClosestGo] at hc
    by_cases hlt : |getTime d - target| < |getTime best - target|
    · rw [if_pos hlt] at hc
      obtain ⟨h1, h2, h3⟩ := ih d c hc
      refine ⟨h1.trans hlt.le, ?_, ?_⟩
      · intro x hx
        rcases List.mem_cons.mp hx with rfl | hx
        · exact h1
        · exact h2 x hx
      · right
        rcases h3 with rfl | ⟨i, hi, hlt2, hfirst⟩
        · exact ⟨⟨0, by simp⟩, rfl, hlt, fun j hj => absurd hj (Nat.not_lt_zero _)⟩
        · refine ⟨⟨i.1 + 1, by simpa using i.2⟩, hi, hlt2.trans hlt, ?_⟩
          rintro ⟨jv, hk⟩ hj
          cases jv with
          | zero => exact hlt2
          | succ k =>
            exact hfirst ⟨k, by simpa using Nat.lt_of_succ_lt_succ hk⟩
              (Nat.lt_of_succ_lt_succ hj)
    · rw [if_neg hlt] at hc
      obtain ⟨h1, h2, h3⟩ := ih best c hc
      have hdle : |getTime best - target| ≤ |getTime d - target| := not_lt.mp hlt
      refine ⟨h1, ?_, ?_⟩
      · intro x hx
        rcases List.mem_cons.mp hx with rfl | hx
        · exact h1.trans hdle
        · exact h2 x hx
      · rcases h3 with rfl | ⟨i, hi, hlt2, hfirst⟩
        · exact Or.inl rfl
        · right
          refine ⟨⟨i.1 + 1, by simpa using i.2⟩, hi, hlt2, ?_⟩
          rintro ⟨jv, hk⟩ hj
          cases jv with
          | zero => exact lt_of_lt_of_le hlt2 hdle
          | succ k =>
            exact hfirst ⟨k, by simpa using Nat.lt_of_succ_lt_succ hk⟩
              (Nat.lt_of_succ_lt_succ hj)

/-- C4: `findClosestDate` returns `none` iff the candidate list is empty, and
on a non-empty list it returns the candidate at the smallest index among those
whose absolute time difference to the target is minimal (a strictly-smaller
comparison against the running minimum, so the first minimum encountered in
the left-to-right scan wins exact ties); the returned date is an element of
the list. -/
theorem findClosestDate_correct (targetDate : Civil) (dates : List Civil) :
    (findClosestDate targetDate dates = none ↔ dates = []) ∧
    (∀ c, findClosestDate targetDate dates = some c →
      ∃ i : Fin dates.length, dates.get i = c ∧
        (∀ j : Fin dates.length,
          |getTime c - getTime targetDate| ≤
            |getTime (dates.get j) - getTime targetDate|) ∧
        (∀ j : Fin dates.length, (j : ℕ) < (i : ℕ) →
          |getTime c - getTime targetDate| <
            |getTime (dates.get j) - getTime targetDate|)) := by
  constructor
  · cases dates <;> simp [findClosestDate]
  · intro c hc
    cases dates with
    | nil => simp [findClosestDate] at hc
    | cons d ds =>
      simp only [findClosestDate, Option.some.injEq] at hc
      obtain ⟨h1, h2, h3⟩ := findClosestGo_spec (getTime targetDate) ds d c hc.symm
      rcases h3 with rfl | ⟨i, hi, hlt, hfirst⟩
      · refine ⟨⟨0, by simp⟩, rfl, ?_, fun j hj => absurd hj (Nat.not_lt_zero _)⟩
        rintro ⟨jv, hk⟩
        cases jv with
        | zero => exact le_refl _
        | succ k =>
          exact h2 _ (List.get_mem ds k (by simpa using Nat.lt_of_succ_lt_succ hk))
      · refine ⟨⟨i.1 + 1, by simpa using i.2⟩, hi, ?_, ?_⟩
        · rintro ⟨jv, hk⟩
          cases jv with
          | zero => exact hlt.le
          | succ k =>
            exact h2 _ (List.get_mem ds k (by simpa using Nat.lt_of_succ_lt_succ hk))
        · rintro ⟨jv, hk⟩ hj
          cases jv with
          | zero => exact hlt
          | succ k =>
            exact hfirst ⟨k, by simpa using Nat.lt_of_succ_lt_succ hk⟩
              (Nat.lt_of_succ_lt_succ hj)

/-- C4 witness: candidates one and two days away from the target — the scan
returns the first, which is an element at index 0, weakly closest overall and
strictly closest among earlier indices (vacuously). -/
theorem findClosestDate_correct_witness :
    ∃ i : Fin 2, [(⟨2015, 3, 31⟩ : Civil), ⟨2015, 4, 2⟩].get i = ⟨2015, 3, 31⟩ ∧
      (∀ j : Fin 2,
        |getTime (⟨2015, 3, 31⟩ : Civil) - getTime ⟨2015, 4, 1⟩| ≤
          |getTime ([(⟨2015, 3, 31⟩ : Civil), ⟨2015, 4, 2⟩].get j) - getTime ⟨2015, 4, 1⟩|) ∧
      (∀ j : Fin 2, (j : ℕ) < (i : ℕ) →
        |getTime (⟨2015, 3, 31⟩ : Civil) - getTime ⟨2015, 4, 1⟩| <
          |getTime ([(⟨2015, 3, 31⟩ : Civil), ⟨2015, 4, 2⟩].get j) - getTime ⟨2015, 4, 1⟩|) :=
  (findClosestDate_correct ⟨2015, 4, 1⟩ [⟨2015, 3, 31⟩, ⟨2015, 4, 2⟩]).2
    ⟨2015, 3, 31⟩ (by decide)

/-- C2: whenever `processData` completes with a non-empty resolution, then if
annualization was chosen and the start value is nonzero the return is the CAGR
`(endValue/startValue)^(1/years) - 1` when
`years = yearFraction(closestStart, closestEnd) ≥ 1/12` and the simple return
`endValue/startValue - 1` otherwise; and when annualization was not chosen the
return is the simple return. -/
theorem processData_return_formula (pow : ℚ → ℚ → ℚ) (data : List DataPoint)
    (selectedPeriod : Period) (customPeriod : Option CustomPeriod) (today : Civil)
    (r : ProcessedData) (cs ce : Civil) (sv ev : ℚ)
    (h : processData pow data selectedPeriod customPeriod today = some r)
    (hcs : r.startDate = some cs) (hce : r.endDate = some ce)
    (hsv : r.startValue = some sv) (hev : r.endValue = some ev)
    (hnz : sv ≠ 0) :
    (r.isAnnualized = true →
      r.returnValue = some (if calculateYearFrac cs ce ≥ 1/12
        then pow (ev / sv) (1 / calculateYearFrac cs ce) - 1
        else ev / sv - 1)) ∧
    (r.isAnnualized = false → r.returnValue = some (ev / sv - 1)) := by
  simp only [processData] at h
  split at h
  · rw [Option.some.injEq] at h; subst h; simp [emptyResult] at hcs
  · split at h
    · rw [Option.some.injEq] at h; subst h; simp [emptyResult] at hcs
    · split at h
      · split at h
        · rw [Option.some.injEq] at h
          subst h
          simp only [Option.some.injEq] at hcs hce hsv hev
          subst hcs; subst hce; subst hsv; subst hev
          refine ⟨fun hia => ?_, fun hia => ?_⟩ <;>
            · dsimp only at hia ⊢
              rw [hia]
              simp
        · exact Option.noConfusion h
      · rw [Option.some.injEq] at h; subst h; simp [emptyResult] at hcs

/-- C2 witness: a concrete non-annualized run — a single sample under the
one-month preset yields the simple return `100/100 - 1 = 0`. -/
theorem processData_return_formula_witness :
    ({ filteredData := [⟨⟨1970, 1, 1⟩, 100⟩]
       startDate := some ⟨1970, 1, 1⟩
       endDate := some ⟨1970, 1, 1⟩
       startValue := some 100
       endValue := some 100
       returnValue := some 0
       isAnnualized := false
       inceptionStartDate := some ⟨1970, 1, 1⟩
       inceptionStartValue := some 100 } : ProcessedData).returnValue
      = some ((100 : ℚ) / 100 - 1) :=
  (processData_return_formula powStub [⟨⟨1970, 1, 1⟩, 100⟩] .p1m none ⟨1970, 1, 1⟩
    _ ⟨1970, 1, 1⟩ ⟨1970, 1, 1⟩ 100 100 (by decide) rfl rfl rfl rfl
    (by decide)).2 rfl

/-- C3: whenever `processData` completes with a non-empty resolution, the
`isAnnualized` flag is true exactly when the period is `custom` with
`yearFraction(closestStart, closestEnd) ≥ 1`, or the period is one of the
presets `1y, 3y, 5y, 10y, 15y, 20y, si`; for `1m`, `3m` and `ytd` it is always
false. -/
theorem processData_isAnnualized_iff (pow : ℚ → ℚ → ℚ) (data : List DataPoint)
    (selectedPeriod : Period) (customPeriod : Option CustomPeriod) (today : Civil)
    (r : ProcessedData) (cs ce : Civil)
    (h : processData pow data selectedPeriod customPeriod today = some r)
    (hcs : r.startDate = some cs) (hce : r.endDate = some ce) :
    (r.isAnnualized = true ↔
      (selectedPeriod = .custom ∧ 1 ≤ calculateYearFrac cs ce) ∨
      selectedPeriod = .p1y ∨ selectedPeriod = .p3y ∨ selectedPeriod = .p5y ∨
      selectedPeriod = .p10y ∨ selectedPeriod = .p15y ∨ selectedPeriod = .p20y ∨
      selectedPeriod = .si) := by
  simp only [processData] at h
  split at h
  · rw [Option.some.injEq] at h; subst h; simp [emptyResult] at hcs
  · split at h
    · rw [Option.some.injEq] at h; subst h; simp [emptyResult] at hcs
    · split at h
      · split at h
        · rw [Option.some.injEq] at h
          subst h
          simp only [Option.some.injEq] at hcs hce
          subst hcs; subst hce
          dsimp only
          cases selectedPeriod <;> simp [ge_iff_le]
        · exact Option.noConfusion h
      · rw [Option.some.injEq] at h; subst h; simp [emptyResult] at hcs

/-- C3 witness: the since-inception preset annualizes. -/
theorem processData_isAnnualized_iff_witness :
    ({ filteredData := [⟨⟨1970, 1, 1⟩, 100⟩, ⟨⟨1973, 1, 1⟩, 200⟩]
       startDate := some ⟨1970, 1, 1⟩
       endDate := some ⟨1973, 1, 1⟩
       startValue := some 100
       endValue := some 200
       returnValue := some (powStub (200 / 100) (1 / 3) - 1)
       isAnnualized := true
       inceptionStartDate := some ⟨1970, 1, 1⟩
       inceptionStartValue := some 100 } : ProcessedData).isAnnualized = true ↔
    ((Period.si = Period.custom ∧
        1 ≤ calculateYearFrac ⟨1970, 1, 1⟩ ⟨1973, 1, 1⟩) ∨
      Period.si = .p1y ∨ Period.si = .p3y ∨ Period.si = .p5y ∨
      Period.si = .p10y ∨ Period.si = .p15y ∨ Period.si = .p20y ∨
      Period.si = .si) :=
  processData_isAnnualized_iff powStub [⟨⟨1970, 1, 1⟩, 100⟩, ⟨⟨1973, 1, 1⟩, 200⟩]
    .si none ⟨1973, 6, 1⟩ _ ⟨1970, 1, 1⟩ ⟨1973, 1, 1⟩ (by decide) rfl rfl

/-- C9 witness: two (differently written) clock readings denoting the same
day give identical results. -/
theorem processData_deterministic_given_clock_witness :
    processData powStub [⟨⟨1970, 1, 1⟩, 100⟩] .p1y none ⟨1970, 1, 2⟩
      = processData powStub [⟨⟨1970, 1, 1⟩, 100⟩] .p1y none ⟨1969, 12, 33⟩ :=
  processData_deterministic_given_clock powStub [⟨⟨1970, 1, 1⟩, 100⟩] .p1y none
    ⟨1970, 1, 2⟩ ⟨1969, 12, 33⟩ (by decide)

/-- C10: for a non-empty selected-period series whose first sample's value is
nonzero (and a non-empty full dataset, which the component reads its inception
point from), the chart series exists, every point's `indexedValue` is
`value / baseline * 100` with the first sample's value as baseline, and the
first point's `indexedValue` is exactly 100. -/
theorem chartData_indexing (pow : ℚ → ℚ → ℚ) (p0 : DataPoint)
    (rest fullDataset : List DataPoint)
    (hfull : fullDataset ≠ []) (hv : p0.value ≠ 0) :
    ∃ l, chartData pow (p0 :: rest) fullDataset = some l ∧
      List.Forall₂ (fun c q => c.indexedValue = q.value / p0.value * 100)
        l (p0 :: rest) ∧
      l.head?.map (·.indexedValue) = some 100 := by
  obtain ⟨q0, qs, hq⟩ : ∃ q0 qs, fullDataset.insertionSort dateLe = q0 :: qs := by
    cases hsort : fullDataset.insertionSort dateLe with
    | nil =>
      have hp := List.perm_insertionSort dateLe fullDataset
      rw [hsort] at hp
      exact absurd hp.symm.eq_nil hfull
    | cons a l => exact ⟨a, l, rfl⟩
  simp only [chartData, hq]
  refine ⟨_, rfl, ?_, ?_⟩
  · have hall : ∀ t : List DataPoint,
        List.Forall₂
          (fun (c : ChartPoint) (q : DataPoint) =>
            c.indexedValue = q.value / p0.value * 100)
          (t.map fun point =>
            ({ date := point.date
               value := point.value / p0.value * 100
               actualValue := point.value
               indexedValue := point.value / p0.value * 100
               annualizedReturnSinceInception :=
                 if calculateYearFrac q0.date point.date ≥ 1/12 then
                   pow (point.value / q0.value)
                     (1 / calculateYearFrac q0.date point.date) - 1
                 else point.value / q0.value - 1 } : ChartPoint)) t := by
      intro t
      induction t with
      | nil => exact .nil
      | cons a t ih => exact .cons rfl ih
    exact hall (p0 :: rest)
  · simp [div_self hv]

/-- C10 witness: a one-point series indexed against itself. -/
theorem chartData_indexing_witness :
    ∃ l, chartData powStub [⟨⟨1970, 1, 1⟩, 5⟩] [⟨⟨1970, 1, 1⟩, 5⟩] = some l ∧
      List.Forall₂
        (fun (c : ChartPoint) (q : DataPoint) =>
          c.indexedValue = q.value / (5 : ℚ) * 100)
        l [⟨⟨1970, 1, 1⟩, 5⟩] ∧
      l.head?.map (·.indexedValue) = some 100 :=
  chartData_indexing powStub ⟨⟨1970, 1, 1⟩, 5⟩ [] [⟨⟨1970, 1, 1⟩, 5⟩]
    (by decide) (by decide)

/-- `findClosestDate` only ever returns an element of its candidate list. -/
theorem findClosestDate_mem (t : Civil) (ds : List Civil) (c : Civil)
    (h : findClosestDate t ds = some c) : c ∈ ds := by
  cases ds with
  | nil => simp [findClosestDate] at h
  | cons d l =>
    simp only [findClosestDate, Option.some.injEq] at h
    obtain ⟨-, -, h3⟩ := findClosestGo_spec (getTime t) l d c h.symm
    rcases h3 with rfl | ⟨i, hi, -, -⟩
    · exact List.mem_cons_self _ _
    · exact List.mem_cons_of_mem _ (hi ▸ List.get_mem l i.1 i.2)

/-- In an ascending (by date) list, if some element with timestamp `v`
satisfies `p` and every element satisfying `p` has timestamp at least `v`,
then the filtered list starts with an element of timestamp exactly `v`. -/
theorem head_filter_of_sorted (p : DataPoint → Bool) (v : Int)
    (hlow : ∀ z : DataPoint, p z = true → v ≤ getTime z.date) :
    ∀ l : List DataPoint, l.Pairwise dateLe →
      (∃ x ∈ l, p x = true ∧ getTime x.date = v) →
      ∃ y, (l.filter p).head? = some y ∧ getTime y.date = v := by
  intro l
  induction l with
  | nil =>
    rintro - ⟨x, hx, -⟩
    exact absurd hx (List.not_mem_nil x)
  | cons a t ih =>
    rintro hl ⟨x, hx, hpx, hxv⟩
    rw [List.pairwise_cons] at hl
    by_cases hpa : p a = true
    · refine ⟨a, by simp [List.filter_cons, hpa], le_antisymm ?_ (hlow a hpa)⟩
      rcases List.mem_cons.mp hx with rfl | hxt
      · exact hxv.le
      · exact le_trans (hl.1 x hxt) hxv.le
    · rcases List.mem_cons.mp hx with rfl | hxt
      · exact absurd hpx hpa
      · simpa [List.filter_cons, hpa] using ih hl.2 ⟨x, hxt, hpx, hxv⟩

/-- Mirror image of `head_filter_of_sorted` for a descending list with an
upper bound. -/
theorem head_filter_of_revsorted (p : DataPoint → Bool) (v : Int)
    (hhigh : ∀ z : DataPoint, p z = true → getTime z.date ≤ v) :
    ∀ l : List DataPoint, l.Pairwise (fun a b => dateLe b a) →
      (∃ x ∈ l, p x = true ∧ getTime x.date = v) →
      ∃ y, (l.filter p).head? = some y ∧ getTime y.date = v := by
  intro l
  induction l with
  | nil =>
    rintro - ⟨x, hx, -⟩
    exact absurd hx (List.not_mem_nil x)
  | cons a t ih =>
    rintro hl ⟨x, hx, hpx, hxv⟩
    rw [List.pairwise_cons] at hl
    by_cases hpa : p a = true
    · refine ⟨a, by simp [List.filter_cons, hpa], le_antisymm (hhigh a hpa) ?_⟩
      rcases List.mem_cons.mp hx with rfl | hxt
      · exact hxv.ge
      · exact hxv ▸ (hl.1 x hxt)
    · rcases List.mem_cons.mp hx with rfl | hxt
      · exact absurd hpx hpa
      · simpa [List.filter_cons, hpa] using ih hl.2 ⟨x, hxt, hpx, hxv⟩

/-- In an ascending (by date) list, if some element with timestamp `v`
satisfies `p` and every element satisfying `p` has timestamp at most `v`,
then the filtered list ends with an element of timestamp exactly `v`. -/
theorem getLast_filter_of_sorted (p : DataPoint → Bool) (v : Int)
    (hhigh : ∀ z : DataPoint, p z = true → getTime z.date ≤ v)
    (l : List DataPoint) (hl : l.Pairwise dateLe)
    (hex : ∃ x ∈ l, p x = true ∧ getTime x.date = v) :
    ∃ y, (l.filter p).getLast? = some y ∧ getTime y.date = v := by
  obtain ⟨x, hx, hpx, hxv⟩ := hex
  obtain ⟨y, hy, hyv⟩ := head_filter_of_revsorted p v hhigh l.reverse
    (List.pairwise_reverse.mpr hl) ⟨x, List.mem_reverse.mpr hx, hpx, hxv⟩
  refine ⟨y, ?_, hyv⟩
  rw [List.getLast?_eq_head?_reverse, ← List.filter_reverse]
  exact hy

/-- C5 counterexample: with a caller-supplied custom range in reverse order
(start after end), the snapped bounds invert, the filtered sub-series is empty,
and `processData` reads a missing element (`filteredData[0].value` —
a TypeError in the original): the claim's guarantee fails. -/
theorem processData_reversed_custom_crashes :
    processData powStub [⟨⟨1970, 1, 1⟩, 1⟩, ⟨⟨1970, 1, 11⟩, 2⟩] .custom
      (some ⟨⟨1970, 1, 11⟩, ⟨1970, 1, 1⟩⟩) ⟨1970, 6, 1⟩ = none := by decide

/-- C5 (amended): whenever the resolved bounds satisfy
`closestStart ≤ closestEnd` (in particular for every custom range given in
ascending order and for the presets), the filtered sub-series is non-empty,
its first element is dated at `closestStart`, its last element is dated at
`closestEnd`, and `processData` completes without reading a missing element. -/
theorem processData_filtered_endpoints (pow : ℚ → ℚ → ℚ)
    (data : List DataPoint) (selectedPeriod : Period)
    (customPeriod : Option CustomPeriod) (today : Civil) (cs ce : Civil)
    (hb : resolvedBounds data selectedPeriod customPeriod today = some (cs, ce))
    (hle : getTime cs ≤ getTime ce) :
    ∃ r, processData pow data selectedPeriod customPeriod today = some r ∧
      r.startDate = some cs ∧ r.endDate = some ce ∧
      r.filteredData ≠ [] ∧
      (∃ y, r.filteredData.head? = some y ∧ getTime y.date = getTime cs) ∧
      (∃ y, r.filteredData.getLast? = some y ∧ getTime y.date = getTime ce) := by
  simp only [resolvedBounds] at hb
  split at hb
  · exact absurd hb (by simp)
  · split at hb
    · exact absurd hb (by simp)
    · split at hb
      · rename_i hd x1 latestData hfind x2 x3 cs0 ce0 hfc1 hfc2
        rw [Option.some.injEq, Prod.mk.injEq] at hb
        obtain ⟨rfl, rfl⟩ := hb
        obtain ⟨xs, hxs, hxsd⟩ : ∃ x ∈ data.insertionSort dateLe, x.date = cs0 :=
          List.mem_map.mp (findClosestDate_mem _ _ _ hfc1)
        obtain ⟨xe, hxe, hxed⟩ : ∃ x ∈ data.insertionSort dateLe, x.date = ce0 :=
          List.mem_map.mp (findClosestDate_mem _ _ _ hfc2)
        have hsorted : (data.insertionSort dateLe).Pairwise dateLe :=
          List.sorted_insertionSort dateLe data
        obtain ⟨yh, hyh, hyhv⟩ :=
          head_filter_of_sorted
            (fun item => decide (getTime cs0 ≤ getTime item.date) &&
              decide (getTime item.date ≤ getTime ce0))
            (getTime cs0)
            (fun z hz => by
              rw [Bool.and_eq_true, decide_eq_true_eq, decide_eq_true_eq] at hz
              exact hz.1)
            (data.insertionSort dateLe) hsorted
            ⟨xs, hxs, by simp [hxsd, hle], by rw [hxsd]⟩
        obtain ⟨yl, hyl, hylv⟩ :=
          getLast_filter_of_sorted
            (fun item => decide (getTime cs0 ≤ getTime item.date) &&
              decide (getTime item.date ≤ getTime ce0))
            (getTime ce0)
            (fun z hz => by
              rw [Bool.and_eq_true, decide_eq_true_eq, decide_eq_true_eq] at hz
              exact hz.2)
            (data.insertionSort dateLe) hsorted
            ⟨xe, hxe, by simp [hxed, hle], by rw [hxed]⟩
        have hne : (data.insertionSort dateLe).filter
            (fun item => decide (getTime cs0 ≤ getTime item.date) &&
              decide (getTime item.date ≤ getTime ce0)) ≠ [] := by
          intro h0
          rw [h0] at hyh
          exact Option.noConfusion hyh
        simp only [processData, if_neg hd, hfind, hfc1, hfc2, hyh, hyl]
        exact ⟨_, rfl, rfl, rfl, hne, ⟨yh, hyh, hyhv⟩, ⟨yl, hyl, hylv⟩⟩
      · exact absurd hb (by simp)

/-- C5 witness: a custom range given in ascending order on a two-sample
series — the filter is provably non-empty with the snapped dates at its two
ends. -/
theorem processData_filtered_endpoints_witness :
    ∃ r, processData powStub [⟨⟨1970, 1, 1⟩, 1⟩, ⟨⟨1970, 1, 11⟩, 2⟩] .custom
        (some ⟨⟨1970, 1, 1⟩, ⟨1970, 1, 11⟩⟩) ⟨1970, 6, 1⟩ = some r ∧
      r.startDate = some ⟨1970, 1, 1⟩ ∧ r.endDate = some ⟨1970, 1, 11⟩ ∧
      r.filteredData ≠ [] ∧
      (∃ y, r.filteredData.head? = some y ∧
        getTime y.date = getTime ⟨1970, 1, 1⟩) ∧
      (∃ y, r.filteredData.getLast? = some y ∧
        getTime y.date = getTime ⟨1970, 1, 11⟩) :=
  processData_filtered_endpoints powStub
    [⟨⟨1970, 1, 1⟩, 1⟩, ⟨⟨1970, 1, 11⟩, 2⟩] .custom
    (some ⟨⟨1970, 1, 1⟩, ⟨1970, 1, 11⟩⟩) ⟨1970, 6, 1⟩ ⟨1970, 1, 1⟩ ⟨1970, 1, 11⟩
    (by decide) (by decide)
